import Mathlib

/-!
Verification of the endpoint-resolution core of the `rustbelt` repository
(`src/lib.rs`, `src/main.rs`): interface enumeration, the bounds-checked
numbered selection protocol, address display rendering and socket/URL
synthesis.  Machine integers (`usize`, `u16`, `u8`) are modelled as `Nat`
with explicit bounds; `usize` arithmetic that can wrap is modelled with an
explicit `% 2 ^ 64` (release-profile wrapping semantics on a 64-bit
target).  The one line read from standard input per prompt is modelled by
explicit state passing of a list of input lines.
-/

/-- Size of the `usize` machine-integer domain on a 64-bit target. -/
def usizeSize : Nat := 2 ^ 64

/-- Size of the `u16` machine-integer domain. -/
def u16Size : Nat := 2 ^ 16

/-- Wrapping subtraction on `usize` values (release-profile semantics of
`a - b` in Rust, as in `choices.len() - 1` in `select_item`). -/
def usizeSub (a b : Nat) : Nat := (a + (usizeSize - b % usizeSize)) % usizeSize

/-- The `char::is_whitespace` predicate used by Rust's `str::trim`:
membership in the Unicode `White_Space` set. -/
def isRustWhitespace (c : Char) : Bool :=
  c.toNat = 9 || c.toNat = 10 || c.toNat = 11 || c.toNat = 12 || c.toNat = 13 ||
  c.toNat = 32 || c.toNat = 133 || c.toNat = 160 || c.toNat = 5760 ||
  (8192 ≤ c.toNat && c.toNat ≤ 8202) || c.toNat = 8232 || c.toNat = 8233 ||
  c.toNat = 8239 || c.toNat = 8287 || c.toNat = 12288

/-- Rust `str::trim`: drop leading and trailing whitespace characters. -/
def rustTrimChars (l : List Char) : List Char :=
  ((l.dropWhile isRustWhitespace).reverse.dropWhile isRustWhitespace).reverse

/-- Rust `str::trim` on a `String`. -/
def rustTrim (s : String) : String := String.mk (rustTrimChars s.data)

/-- Error kinds of Rust's `core::num::ParseIntError` reachable when parsing
an unsigned integer type. -/
inductive ParseIntError
  | empty
  | invalidDigit
  | posOverflow
deriving DecidableEq, Repr

/-- The digit-accumulation loop of Rust's `from_str_radix` at radix 10 for
an unsigned type whose domain is `[0, bound)`: each character must be an
ASCII digit, and `checked_mul`/`checked_add` fail with `PosOverflow` as
soon as the accumulator would leave the domain. -/
def parseDigitsLoop (bound : Nat) : List Char → Nat → Except ParseIntError Nat
  | [], acc => .ok acc
  | c :: rest, acc =>
    if c.isDigit then
      if acc * 10 + (c.toNat - 48) < bound then
        parseDigitsLoop bound rest (acc * 10 + (c.toNat - 48))
      else .error .posOverflow
    else .error .invalidDigit

/-- Rust `str::parse::<T>` for an unsigned integer type `T` with domain
`[0, bound)`: empty input fails with `Empty`, a lone `+` sign fails with
`InvalidDigit`, a leading `+` is stripped, and the remaining characters go
through the digit loop. -/
def parseUnsigned (bound : Nat) (s : List Char) : Except ParseIntError Nat :=
  match s with
  | [] => .error .empty
  | c :: rest =>
    if c = '+' then
      if rest.isEmpty then .error .invalidDigit else parseDigitsLoop bound rest 0
    else parseDigitsLoop bound (c :: rest) 0

/-- The decimal digit character for a value `d < 10`, as produced by Rust's
`Display` implementation for unsigned integers. -/
def decDigitChar (d : Nat) : Char := Char.ofNat (48 + d)

/-- Least-significant-first decimal digits of `n`, with explicit fuel
(`fuel ≥ n` suffices for the recursion `n ↦ n / 10` to bottom out). -/
def decDigitsRevAux : Nat → Nat → List Char
  | _, 0 => []
  | 0, _ + 1 => []
  | fuel + 1, n + 1 => decDigitChar ((n + 1) % 10) :: decDigitsRevAux fuel ((n + 1) / 10)

/-- The decimal rendering of a non-negative integer, as produced by Rust's
`Display` (`format!` with `{}`): `0` renders as `"0"`, otherwise the
decimal digits without padding or sign. -/
def natToDecimal (n : Nat) : List Char :=
  if n = 0 then ['0'] else (decDigitsRevAux n n).reverse

/-- `natToDecimal` packaged as a `String`. -/
def natToDecimalStr (n : Nat) : String := String.mk (natToDecimal n)

/-- The lowercase hexadecimal digit character for a value `d < 16`, as
produced by Rust's `LowerHex` implementation. -/
def hexDigitChar (d : Nat) : Char :=
  if d < 10 then Char.ofNat (48 + d) else Char.ofNat (87 + d)

/-- Least-significant-first lowercase hexadecimal digits of `n`, with
explicit fuel. -/
def hexDigitsRevAux : Nat → Nat → List Char
  | _, 0 => []
  | 0, _ + 1 => []
  | fuel + 1, n + 1 => hexDigitChar ((n + 1) % 16) :: hexDigitsRevAux fuel ((n + 1) / 16)

/-- The lowercase hexadecimal rendering of a non-negative integer, as
produced by Rust's `format!` with `{:x}`: `0` renders as `"0"`, otherwise
the hexadecimal digits without zero padding. -/
def natToHex (n : Nat) : List Char :=
  if n = 0 then ['0'] else (hexDigitsRevAux n n).reverse

/-- `natToHex` packaged as a `String`. -/
def natToHexStr (n : Nat) : String := String.mk (natToHex n)

/-- The error taxonomy of the resolution pipeline (`Box<dyn Error>` values
actually constructed by the source): integer parse errors, the bounds
error `ChoiceError`, and `NetworkInterfaceExistanceError`.  `indexPanic`
models the Rust panic on an out-of-bounds slice/`HashMap` index (the only
way those expressions can fail); it is proved unreachable where the
source relies on a preceding bounds check. -/
inductive RustError
  | parse (e : ParseIntError)
  | choice (low high : Nat)
  | interfaceNotFound (name : String)
  | indexPanic
deriving DecidableEq, Repr

/-- The `Display` messages of the error values: `ChoiceError::fmt` writes
`"Not a valid choice. Must be between {low} and {high}"` and
`NetworkInterfaceExistanceError::fmt` writes
`"The given network interface doesn't exist: {name}"`. -/
def rustErrorMessage : RustError → String
  | .parse .empty => "cannot parse integer from empty string"
  | .parse .invalidDigit => "invalid digit found in string"
  | .parse .posOverflow => "number too large to fit in target type"
  | .choice low high =>
      "Not a valid choice. Must be between " ++ natToDecimalStr low ++ " and " ++
        natToDecimalStr high
  | .interfaceNotFound name => "The given network interface doesn't exist: " ++ name
  | .indexPanic => "index out of bounds"

/-- Decidable equality for `Except`, so that runs of the embedded functions
can be checked on concrete inputs with `decide`. -/
instance {ε α : Type} [DecidableEq ε] [DecidableEq α] : DecidableEq (Except ε α)
  | .ok a, .ok b =>
    if h : a = b then .isTrue (by rw [h]) else .isFalse (by intro hc; cases hc; exact h rfl)
  | .ok _, .error _ => .isFalse (by intro hc; cases hc)
  | .error _, .ok _ => .isFalse (by intro hc; cases hc)
  | .error e, .error f =>
    if h : e = f then .isTrue (by rw [h]) else .isFalse (by intro hc; cases hc; exact h rfl)

/-- `select_item` from `src/lib.rs` (lines 88-102): trim and parse the
input line as `usize`; propagate the parse error verbatim; if the value is
`>= choices.len()` fail with `ChoiceError::new(0, choices.len() - 1)`
(the subtraction is `usize` arithmetic); otherwise return the index and
the chosen label. -/
def select_item (choice : String) (choices : List String) :
    Except RustError (Nat × String) :=
  match parseUnsigned usizeSize (rustTrim choice).data with
  | .error e => .error (.parse e)
  | .ok choice_num =>
    if choices.length ≤ choice_num then
      .error (.choice 0 (usizeSub choices.length 1))
    else
      .ok (choice_num, choices.getD choice_num "")

example : select_item "1" ["a", "b"] = .ok (1, "b") := by decide
example : select_item " 0\n" ["a", "b"] = .ok (0, "a") := by decide
example : select_item "5" ["a", "b", "c"] = .error (.choice 0 2) := by decide
example : select_item "x" ["a"] = .error (.parse .invalidDigit) := by decide
example : select_item "" ["a"] = .error (.parse .empty) := by decide
example : select_item "+" ["a"] = .error (.parse .invalidDigit) := by decide
example : select_item "0" [] = .error (.choice 0 (2 ^ 64 - 1)) := by decide

/-- An IPv4 address: four octets (`u8` values), as in
`std::net::Ipv4Addr` / `ipv4.ip().octets()`. -/
structure Ipv4Addr where
  a : Nat
  b : Nat
  c : Nat
  d : Nat
deriving DecidableEq, Repr

/-- An IPv6 address: eight 16-bit groups (`u16` values), as in
`std::net::Ipv6Addr` / `ipv6.ip().segments()`. -/
structure Ipv6Addr where
  s0 : Nat
  s1 : Nat
  s2 : Nat
  s3 : Nat
  s4 : Nat
  s5 : Nat
  s6 : Nat
  s7 : Nat
deriving DecidableEq, Repr

/-- `ipnetwork::IpNetwork`, reduced to the address data the source actually
uses (`v4.ip()` / `v6.ip()`; the prefix length is never read). -/
inductive IpNetwork
  | V4 (ip : Ipv4Addr)
  | V6 (ip : Ipv6Addr)
deriving DecidableEq, Repr

/-- The `IpString` enum from `src/lib.rs` (lines 63-66): a display string
tagged with its address family. -/
inductive IpString
  | V4 (s : String)
  | V6 (s : String)
deriving DecidableEq, Repr

/-- `std::net::SocketAddr`: either a `SocketAddrV4` (address, port) or a
`SocketAddrV6` (address, port, flowinfo, scope_id). -/
inductive SocketAddr
  | V4 (ip : Ipv4Addr) (port : Nat)
  | V6 (ip : Ipv6Addr) (port flowinfo scope_id : Nat)
deriving DecidableEq, Repr

/-- The address family of a binary address. -/
inductive AddressFamily
  | v4
  | v6
deriving DecidableEq, Repr

/-- Family of an `IpNetwork` value. -/
def IpNetwork.family : IpNetwork → AddressFamily
  | .V4 _ => .v4
  | .V6 _ => .v6

/-- Family tag of an `IpString` value. -/
def IpString.family : IpString → AddressFamily
  | .V4 _ => .v4
  | .V6 _ => .v6

/-- Family of a socket address. -/
def SocketAddr.family : SocketAddr → AddressFamily
  | .V4 _ _ => .v4
  | .V6 _ _ _ _ => .v6

/-- The untagged display string inside an `IpString` (the match in
`choose_ip`, `src/lib.rs` lines 126-129). -/
def ipStringValue : IpString → String
  | .V4 s => s
  | .V6 s => s

/-- The IPv4 display rendering from `get_network_socket`
(`src/lib.rs` lines 204-210): `"{}.{}.{}.{}"` over the four octets. -/
def ipv4_display (ip : Ipv4Addr) : String :=
  natToDecimalStr ip.a ++ "." ++ natToDecimalStr ip.b ++ "." ++
    natToDecimalStr ip.c ++ "." ++ natToDecimalStr ip.d

/-- The IPv6 display rendering from `get_network_socket`
(`src/lib.rs` lines 211-221): `"{:x}:{:x}:{:x}:{:x}:{:x}:{:x}:{:x}:{:x}"`
over the eight 16-bit groups. -/
def ipv6_display (ip : Ipv6Addr) : String :=
  natToHexStr ip.s0 ++ ":" ++ natToHexStr ip.s1 ++ ":" ++ natToHexStr ip.s2 ++ ":" ++
    natToHexStr ip.s3 ++ ":" ++ natToHexStr ip.s4 ++ ":" ++ natToHexStr ip.s5 ++ ":" ++
    natToHexStr ip.s6 ++ ":" ++ natToHexStr ip.s7

/-- The address-to-display map of `get_network_socket`
(`src/lib.rs` lines 203-222): render per family and keep the family tag. -/
def ip_to_ip_string : IpNetwork → IpString
  | .V4 ip => .V4 (ipv4_display ip)
  | .V6 ip => .V6 (ipv6_display ip)

/-- `create_socket` from `src/lib.rs` (lines 236-245). -/
def create_socket (ip : IpNetwork) (port : Nat) : SocketAddr :=
  match ip with
  | .V4 v4 => .V4 v4 port
  | .V6 v6 => .V6 v6 port 0 0

/-- `create_url` from `src/lib.rs` (lines 247-252). -/
def create_url (ip : IpString) (port : Nat) : String :=
  match ip with
  | .V4 v4 => "http://" ++ v4 ++ ":" ++ natToDecimalStr port
  | .V6 v6 => "http://[" ++ v6 ++ "]:" ++ natToDecimalStr port

example : ipv4_display ⟨192, 168, 1, 5⟩ = "192.168.1.5" := by decide
example : ipv6_display ⟨0xfe80, 0, 0, 0, 0xabcd, 1, 2, 3⟩ = "fe80:0:0:0:abcd:1:2:3" := by decide
example : create_url (.V4 "192.168.1.5") 8080 = "http://192.168.1.5:8080" := by decide
example :
    create_url (.V6 "fe80:0:0:0:abcd:1:2:3") 80 = "http://[fe80:0:0:0:abcd:1:2:3]:80" := by
  decide

/-- The line returned by `io::stdin().read_line` for a given list of
pending input lines: the next line, or the empty string at end of input. -/
def stdinHead : List String → String
  | [] => ""
  | line :: _ => line

/-- The input lines still pending after one `read_line`. -/
def stdinRest : List String → List String
  | [] => []
  | _ :: rest => rest

/-- `choose_number` from `src/lib.rs` (lines 104-116): print the message
and the numbered candidates, read one line, and delegate to `select_item`.
The printed text has no observable effect; the read is modelled by
explicit state passing of the pending input lines. -/
def choose_number (choices : List String) (stdin : List String) :
    Except RustError (Nat × String) × List String :=
  (select_item (stdinHead stdin) choices, stdinRest stdin)

/-- `choose_ip` from `src/lib.rs` (lines 118-139): run `choose_number`
over the untagged display strings, then re-attach the family tag of the
original entry at the returned index.  The `none` branch models the Rust
panic on the index expression `choices[interface_num]`; it is unreachable
because `select_item` bounds-checks the index. -/
def choose_ip (choices : List IpString) (stdin : List String) :
    Except RustError (Nat × IpString) × List String :=
  match choose_number (choices.map ipStringValue) stdin with
  | (.error e, rest) => (.error e, rest)
  | (.ok (interface_num, ip_string), rest) =>
    match choices.get? interface_num with
    | some (.V4 _) => (.ok (interface_num, .V4 ip_string), rest)
    | some (.V6 _) => (.ok (interface_num, .V6 ip_string), rest)
    | none => (.error .indexPanic, rest)

/-- A `pnet::datalink::NetworkInterface`, reduced to the fields the source
reads: its name and its list of assigned addresses. -/
structure NetworkInterface where
  name : String
  ips : List IpNetwork
deriving DecidableEq, Repr

/-- `HashMap::insert`: replace the value of an existing key, otherwise add
a new entry.  The catalog `HashMap<String, NetworkInterface>` is modelled
as an association list. -/
def mapInsert (m : List (String × NetworkInterface)) (key : String)
    (v : NetworkInterface) : List (String × NetworkInterface) :=
  if m.any (fun p => p.1 == key) then
    m.map (fun p => if p.1 == key then (key, v) else p)
  else m ++ [(key, v)]

/-- `HashMap::get`: the value stored at a key, if any. -/
def mapLookup (m : List (String × NetworkInterface)) (key : String) :
    Option NetworkInterface :=
  match m.find? (fun p => p.1 == key) with
  | some p => some p.2
  | none => none

/-- One iteration of the loop in `get_network_interfaces`: insert the
interface under its name unless it has no assigned addresses. -/
def insertInterface (m : List (String × NetworkInterface)) (i : NetworkInterface) :
    List (String × NetworkInterface) :=
  if i.ips.isEmpty then m else mapInsert m i.name i

/-- `get_network_interfaces` from `src/lib.rs` (lines 68-76), over an
injected operating-system interface snapshot (the `datalink::interfaces()`
result): keep every interface with at least one address, keyed by name. -/
def get_network_interfaces (osInterfaces : List NetworkInterface) :
    List (String × NetworkInterface) :=
  osInterfaces.foldl insertInterface []

/-- Insertion of a string into a sorted list, for `interface_names.sort()`. -/
def insertSorted (s : String) : List String → List String
  | [] => [s]
  | t :: rest => if s ≤ t then s :: t :: rest else t :: insertSorted s rest

/-- `Vec::sort` on interface names, modelled by insertion sort. -/
def sortStrings (l : List String) : List String := l.foldr insertSorted []

/-- The keys of the catalog map (`interface_map.keys()`). -/
def mapKeys (m : List (String × NetworkInterface)) : List String := m.map Prod.fst

/-- The tail of `get_network_socket` after an interface has been chosen
(`src/lib.rs` lines 198-233): resolve an address via `choose_ip`, then
build the socket from the binary address at the returned index and the
URL from the tagged display string.  The port string is parsed as `u16`;
the `none` branch models the panic on `network_interface.ips[ipaddr_count]`
and is unreachable. -/
def resolve_socket_url (network_interface : NetworkInterface) (portStr : String)
    (stdin : List String) : Except RustError (String × SocketAddr) × List String :=
  match choose_ip (network_interface.ips.map ip_to_ip_string) stdin with
  | (.error e, rest) => (.error e, rest)
  | (.ok (ipaddr_count, ipaddr_string), rest) =>
    match network_interface.ips.get? ipaddr_count with
    | none => (.error .indexPanic, rest)
    | some ip =>
      match parseUnsigned u16Size portStr.data with
      | .error e => (.error (.parse e), rest)
      | .ok port => (.ok (create_url ipaddr_string port, create_socket ip port), rest)

/-- `get_network_socket` from `src/lib.rs` (lines 169-234), over an
injected interface snapshot, the optional `--interface` argument, the
`--port` argument string and the pending input lines: look the requested
interface up (absent → `NetworkInterfaceExistanceError`), or prompt over
the sorted interface names; then resolve an address and synthesize the
socket and URL. -/
def get_network_socket (osInterfaces : List NetworkInterface)
    (requestedInterface : Option String) (portStr : String) (stdin : List String) :
    Except RustError (String × SocketAddr) × List String :=
  let interface_map := get_network_interfaces osInterfaces
  match requestedInterface with
  | some name =>
    match mapLookup interface_map name with
    | some network_interface => resolve_socket_url network_interface portStr stdin
    | none => (.error (.interfaceNotFound name), stdin)
  | none =>
    let interface_names := sortStrings (mapKeys interface_map)
    match choose_number interface_names stdin with
    | (.error e, rest) => (.error e, rest)
    | (.ok (interface_num, _), rest) =>
      match mapLookup interface_map (interface_names.getD interface_num "") with
      | some network_interface => resolve_socket_url network_interface portStr rest
      | none => (.error .indexPanic, rest)

example :
    get_network_socket [⟨"eth0", [.V4 ⟨192, 168, 1, 5⟩]⟩] none "8080" ["0", "0"] =
      (.ok ("http://192.168.1.5:8080", .V4 ⟨192, 168, 1, 5⟩ 8080), []) := by decide
example :
    get_network_socket [⟨"eth0", [.V4 ⟨192, 168, 1, 5⟩]⟩] (some "doesnotexist") "8080" ["0"] =
      (.error (.interfaceNotFound "doesnotexist"), ["0"]) := by decide
example :
    choose_ip [.V6 "x", .V4 "y"] ["1"] = (.ok (1, .V4 "y"), []) := by decide

/-- The value accumulated by the digit loop over a character list. -/
def digitsVal (acc : Nat) (l : List Char) : Nat :=
  l.foldl (fun a c => a * 10 + (c.toNat - 48)) acc

theorem digitsVal_nil (acc : Nat) : digitsVal acc [] = acc := rfl

theorem digitsVal_cons (acc : Nat) (c : Char) (l : List Char) :
    digitsVal acc (c :: l) = digitsVal (acc * 10 + (c.toNat - 48)) l := rfl

theorem digitsVal_append (acc : Nat) (l₁ l₂ : List Char) :
    digitsVal acc (l₁ ++ l₂) = digitsVal (digitsVal acc l₁) l₂ := by
  simp [digitsVal, List.foldl_append]

theorem le_digitsVal (l : List Char) (acc : Nat) : acc ≤ digitsVal acc l := by
  induction l generalizing acc with
  | nil => exact Nat.le_refl acc
  | cons c rest ih =>
    rw [digitsVal_cons]
    exact Nat.le_trans (by omega) (ih (acc * 10 + (c.toNat - 48)))

theorem parseDigitsLoop_ok (bound : Nat) (l : List Char) (acc : Nat)
    (hdig : ∀ c ∈ l, c.isDigit = true) (hlt : digitsVal acc l < bound) :
    parseDigitsLoop bound l acc = .ok (digitsVal acc l) := by
  induction l generalizing acc with
  | nil => rfl
  | cons c rest ih =>
    rw [digitsVal_cons] at hlt ⊢
    have hc : c.isDigit = true := hdig c (List.mem_cons_self c rest)
    have hstep : acc * 10 + (c.toNat - 48) < bound :=
      Nat.lt_of_le_of_lt (le_digitsVal rest (acc * 10 + (c.toNat - 48))) hlt
    simp only [parseDigitsLoop, hc, if_true, hstep]
    exact ih (acc * 10 + (c.toNat - 48)) (fun c hmem => hdig c (List.mem_cons_of_mem _ hmem)) hlt

/-- Facts about the ten decimal digit characters, settled by evaluation. -/
theorem decDigitChar_facts : ∀ d, d < 10 →
    (decDigitChar d).isDigit = true ∧ (decDigitChar d).toNat = 48 + d ∧
    decDigitChar d ≠ '+' ∧ isRustWhitespace (decDigitChar d) = false := by decide

theorem mem_decDigitsRevAux (fuel n : Nat) (c : Char) (h : c ∈ decDigitsRevAux fuel n) :
    ∃ d, d < 10 ∧ c = decDigitChar d := by
  induction fuel generalizing n with
  | zero => cases n <;> simp [decDigitsRevAux] at h
  | succ fuel ih =>
    cases n with
    | zero => simp [decDigitsRevAux] at h
    | succ m =>
      simp only [decDigitsRevAux, List.mem_cons] at h
      rcases h with h | h
      · exact ⟨(m + 1) % 10, Nat.mod_lt _ (by omega), h⟩
      · exact ih _ h

theorem decDigitsRevAux_val (fuel : Nat) : ∀ n acc, n ≤ fuel →
    digitsVal acc (decDigitsRevAux fuel n).reverse =
      acc * 10 ^ (decDigitsRevAux fuel n).length + n := by
  induction fuel with
  | zero =>
    intro n acc hn
    have : n = 0 := Nat.le_zero.mp hn
    subst this
    simp [decDigitsRevAux, digitsVal_nil]
  | succ fuel ih =>
    intro n acc _
    cases n with
    | zero => simp [decDigitsRevAux, digitsVal_nil]
    | succ m =>
      have hrec : (m + 1) / 10 ≤ fuel := by omega
      have hchar := (decDigitChar_facts ((m + 1) % 10) (Nat.mod_lt _ (by omega))).2.1
      simp only [decDigitsRevAux, List.reverse_cons, digitsVal_append,
        ih ((m + 1) / 10) acc hrec, List.length_cons]
      rw [digitsVal_cons, digitsVal_nil, hchar]
      have hdm : (m + 1) / 10 * 10 + (m + 1) % 10 = m + 1 := by omega
      ring_nf
      omega

theorem natToDecimal_ne_nil (n : Nat) : natToDecimal n ≠ [] := by
  by_cases h : n = 0
  · simp [natToDecimal, h]
  · simp only [natToDecimal, h, if_false]
    intro hnil
    rw [List.reverse_eq_nil_iff] at hnil
    have hval := decDigitsRevAux_val n n 0 (Nat.le_refl n)
    rw [hnil] at hval
    simp [digitsVal_nil] at hval
    omega

theorem mem_natToDecimal (n : Nat) (c : Char) (h : c ∈ natToDecimal n) :
    ∃ d, d < 10 ∧ c = decDigitChar d := by
  by_cases hn : n = 0
  · subst hn
    simp [natToDecimal] at h
    exact ⟨0, by omega, h⟩
  · simp only [natToDecimal, hn, if_false, List.mem_reverse] at h
    exact mem_decDigitsRevAux n n c h

theorem digitsVal_natToDecimal (n : Nat) : digitsVal 0 (natToDecimal n) = n := by
  by_cases hn : n = 0
  · subst hn; decide
  · simp only [natToDecimal, hn, if_false]
    rw [decDigitsRevAux_val n n 0 (Nat.le_refl n)]
    omega

theorem dropWhile_eq_self_of_head (p : Char → Bool) (l : List Char)
    (h : ∀ c ∈ l, p c = false) : l.dropWhile p = l := by
  cases l with
  | nil => rfl
  | cons c rest =>
    have : p c = false := h c (List.mem_cons_self _ _)
    simp [List.dropWhile, this]

theorem rustTrimChars_eq_self (l : List Char)
    (h : ∀ c ∈ l, isRustWhitespace c = false) : rustTrimChars l = l := by
  unfold rustTrimChars
  rw [dropWhile_eq_self_of_head _ _ h]
  rw [dropWhile_eq_self_of_head _ _ (by intro c hc; exact h c (List.mem_reverse.mp hc))]
  exact List.reverse_reverse l

theorem rustTrim_natToDecimal (n : Nat) :
    (rustTrim (natToDecimalStr n)).data = natToDecimal n := by
  show rustTrimChars (natToDecimal n) = natToDecimal n
  apply rustTrimChars_eq_self
  intro c hc
  obtain ⟨d, hd, rfl⟩ := mem_natToDecimal n c hc
  exact (decDigitChar_facts d hd).2.2.2

theorem usizeSub_one (n : Nat) (h1 : 0 < n) (h2 : n ≤ usizeSize) : usizeSub n 1 = n - 1 := by
  have hpow : usizeSize = 18446744073709551616 := by norm_num [usizeSize]
  unfold usizeSub
  rw [hpow] at h2 ⊢
  omega

theorem parseUnsigned_natToDecimal (n : Nat) (h : n < usizeSize) :
    parseUnsigned usizeSize (natToDecimal n) = .ok n := by
  have hdig : ∀ c ∈ natToDecimal n, c.isDigit = true := by
    intro c hc
    obtain ⟨d, hd, rfl⟩ := mem_natToDecimal n c hc
    exact (decDigitChar_facts d hd).1
  have hval : digitsVal 0 (natToDecimal n) < usizeSize := by
    rw [digitsVal_natToDecimal]; exact h
  cases hcase : natToDecimal n with
  | nil => exact absurd hcase (natToDecimal_ne_nil n)
  | cons c rest =>
    have hplus : c ≠ '+' := by
      obtain ⟨d, hd, rfl⟩ := mem_natToDecimal n c (by rw [hcase]; exact List.mem_cons_self _ _)
      exact (decDigitChar_facts d hd).2.2.1
    rw [hcase] at hdig hval
    simp only [parseUnsigned, hplus, if_false]
    rw [parseDigitsLoop_ok usizeSize (c :: rest) 0 hdig hval]
    rw [← hcase, digitsVal_natToDecimal]

/-- A lowercase hexadecimal digit character: an ASCII digit or one of
`a`..`f`. -/
def isLowerHexDigit (c : Char) : Bool := c.isDigit || (97 ≤ c.toNat && c.toNat ≤ 102)

/-- Facts about the sixteen lowercase hexadecimal digit characters,
settled by evaluation. -/
theorem hexDigitChar_facts : ∀ d, d < 16 →
    isLowerHexDigit (hexDigitChar d) = true ∧ hexDigitChar d ≠ ':' := by decide

theorem mem_hexDigitsRevAux (fuel n : Nat) (c : Char) (h : c ∈ hexDigitsRevAux fuel n) :
    ∃ d, d < 16 ∧ c = hexDigitChar d := by
  induction fuel generalizing n with
  | zero => cases n <;> simp [hexDigitsRevAux] at h
  | succ fuel ih =>
    cases n with
    | zero => simp [hexDigitsRevAux] at h
    | succ m =>
      simp only [hexDigitsRevAux, List.mem_cons] at h
      rcases h with h | h
      · exact ⟨(m + 1) % 16, Nat.mod_lt _ (by omega), h⟩
      · exact ih _ h

theorem mem_natToHex (n : Nat) (c : Char) (h : c ∈ natToHex n) :
    ∃ d, d < 16 ∧ c = hexDigitChar d := by
  by_cases hn : n = 0
  · subst hn
    simp [natToHex] at h
    exact ⟨0, by omega, by rw [h]; rfl⟩
  · simp only [natToHex, hn, if_false, List.mem_reverse] at h
    exact mem_hexDigitsRevAux n n c h

theorem natToHex_all_lower (n : Nat) : (natToHex n).all isLowerHexDigit = true := by
  rw [List.all_eq_true]
  intro c hc
  obtain ⟨d, hd, rfl⟩ := mem_natToHex n c hc
  exact (hexDigitChar_facts d hd).1

theorem natToHex_no_colon (n : Nat) : ∀ c ∈ natToHex n, c ≠ ':' := by
  intro c hc
  obtain ⟨d, hd, rfl⟩ := mem_natToHex n c hc
  exact (hexDigitChar_facts d hd).2

/-- Decomposition of a character list into its `:`-separated groups (the
reference notion for counting the groups of a display string). -/
def splitOnColon : List Char → List (List Char)
  | [] => [[]]
  | c :: rest =>
    if c = ':' then [] :: splitOnColon rest
    else
      match splitOnColon rest with
      | [] => [[c]]
      | g :: t => (c :: g) :: t

theorem splitOnColon_colon_free (l : List Char) (h : ∀ c ∈ l, c ≠ ':') :
    splitOnColon l = [l] := by
  induction l with
  | nil => rfl
  | cons c rest ih =>
    have hc : ¬ c = ':' := h c (List.mem_cons_self _ _)
    simp only [splitOnColon, hc, if_false]
    rw [ih (fun x hx => h x (List.mem_cons_of_mem _ hx))]

theorem splitOnColon_append (l r : List Char) (h : ∀ c ∈ l, c ≠ ':') :
    splitOnColon (l ++ ':' :: r) = l :: splitOnColon r := by
  induction l with
  | nil => simp [splitOnColon]
  | cons c rest ih =>
    have hc : ¬ c = ':' := h c (List.mem_cons_self _ _)
    simp only [List.cons_append, splitOnColon, hc, if_false, List.append_eq]
    rw [ih (fun x hx => h x (List.mem_cons_of_mem _ hx))]

theorem string_data_append (s t : String) : (s ++ t).data = s.data ++ t.data := rfl

theorem ipv6_display_data (ip : Ipv6Addr) :
    (ipv6_display ip).data =
      natToHex ip.s0 ++ ':' :: (natToHex ip.s1 ++ ':' :: (natToHex ip.s2 ++ ':' ::
        (natToHex ip.s3 ++ ':' :: (natToHex ip.s4 ++ ':' :: (natToHex ip.s5 ++ ':' ::
          (natToHex ip.s6 ++ ':' :: natToHex ip.s7)))))) := by
  simp only [ipv6_display, string_data_append, List.append_assoc]
  rfl

/-- C3: an IPv6 display string is the eight 16-bit groups each rendered as
unpadded lowercase hexadecimal (value `0` renders as `"0"`), joined by
`:`; splitting at the colons recovers exactly the eight rendered groups,
so the display string always has exactly 8 colon-separated groups. -/
theorem ipv6_display_eight_groups (ip : Ipv6Addr) :
    ip_to_ip_string (.V6 ip) = .V6 (ipv6_display ip) ∧
    splitOnColon (ipv6_display ip).data =
      [natToHex ip.s0, natToHex ip.s1, natToHex ip.s2, natToHex ip.s3,
        natToHex ip.s4, natToHex ip.s5, natToHex ip.s6, natToHex ip.s7] ∧
    (splitOnColon (ipv6_display ip).data).length = 8 ∧
    natToHexStr 0 = "0" ∧
    ∀ n : Nat, (natToHex n).all isLowerHexDigit = true := by
  have hsplit : splitOnColon (ipv6_display ip).data =
      [natToHex ip.s0, natToHex ip.s1, natToHex ip.s2, natToHex ip.s3,
        natToHex ip.s4, natToHex ip.s5, natToHex ip.s6, natToHex ip.s7] := by
    rw [ipv6_display_data]
    rw [splitOnColon_append _ _ (natToHex_no_colon _)]
    rw [splitOnColon_append _ _ (natToHex_no_colon _)]
    rw [splitOnColon_append _ _ (natToHex_no_colon _)]
    rw [splitOnColon_append _ _ (natToHex_no_colon _)]
    rw [splitOnColon_append _ _ (natToHex_no_colon _)]
    rw [splitOnColon_append _ _ (natToHex_no_colon _)]
    rw [splitOnColon_append _ _ (natToHex_no_colon _)]
    rw [splitOnColon_colon_free _ (natToHex_no_colon _)]
  exact ⟨rfl, hsplit, by rw [hsplit]; rfl, rfl, natToHex_all_lower⟩

/-- C1: for every candidate sequence of positive length (within the
`usize` domain) and every valid index `i`, giving the selection protocol
the decimal string of `i` as the input line succeeds and returns the
choice `(i, candidates[i])`. -/
theorem select_item_valid_index (choices : List String) (i : Nat)
    (h : i < choices.length) (hlen : choices.length ≤ usizeSize) :
    select_item (natToDecimalStr i) choices = .ok (i, choices[i]) := by
  unfold select_item
  rw [rustTrim_natToDecimal i, parseUnsigned_natToDecimal i (Nat.lt_of_lt_of_le h hlen)]
  have hguard : ¬ choices.length ≤ i := Nat.not_le.mpr h
  simp only [hguard, if_false]
  rw [List.getD_eq_getElem choices "" h]

/-- C1 witness: Scenario A of the spec, candidates `["eth0", "wlan0"]`
with input `"0"`. -/
theorem select_item_valid_index_witness :
    select_item (natToDecimalStr 0) ["eth0", "wlan0"] = .ok (0, "eth0") :=
  select_item_valid_index ["eth0", "wlan0"] 0 (by decide) (by decide)

/-- C2 (amended with `0 < n`): for a candidate sequence of positive length
`n` (within the `usize` domain), an input line parsing as `j ≥ n` makes
the selection protocol fail with the bounds error `(0, n - 1)`, whose
display message is exactly
`"Not a valid choice. Must be between 0 and {n-1}"`. -/
theorem select_item_out_of_bounds (input : String) (choices : List String) (j : Nat)
    (hparse : parseUnsigned usizeSize (rustTrim input).data = .ok j)
    (hge : choices.length ≤ j) (hpos : 0 < choices.length)
    (hlen : choices.length ≤ usizeSize) :
    select_item input choices = .error (.choice 0 (choices.length - 1)) ∧
    rustErrorMessage (.choice 0 (choices.length - 1)) =
      "Not a valid choice. Must be between 0 and " ++ natToDecimalStr (choices.length - 1) := by
  constructor
  · unfold select_item
    rw [hparse]
    simp only [hge, if_true]
    rw [usizeSub_one choices.length hpos hlen]
  · rfl

/-- C2 witness: Scenario B of the spec, three candidates with input `"5"`. -/
theorem select_item_out_of_bounds_witness :
    select_item "5" ["a", "b", "c"] = .error (.choice 0 2) ∧
    rustErrorMessage (.choice 0 2) = "Not a valid choice. Must be between 0 and 2" := by
  have h := select_item_out_of_bounds "5" ["a", "b", "c"] 5 (by decide) (by decide)
    (by decide) (by decide)
  exact ⟨h.1, by decide⟩

/-- C2 counterexample: for the empty candidate sequence (`n = 0`) the
input `"0"` parses as `0 ≥ n`, yet the resulting error is not the bounds
error `(0, n - 1)`: the `usize` subtraction `0 - 1` wraps to
`2 ^ 64 - 1`. -/
theorem select_item_out_of_bounds_cx :
    parseUnsigned usizeSize (rustTrim "0").data = .ok 0 ∧
    ([] : List String).length ≤ 0 ∧
    select_item "0" ([] : List String) ≠
      .error (.choice 0 (([] : List String).length - 1)) := by
  refine ⟨by decide, by decide, by decide⟩

/-- C8: an input line that does not parse as a non-negative integer after
trimming makes the selection protocol fail with exactly the parse error,
for every candidate sequence; a choice is never returned. -/
theorem select_item_parse_error (input : String) (choices : List String)
    (e : ParseIntError)
    (h : parseUnsigned usizeSize (rustTrim input).data = .error e) :
    select_item input choices = .error (.parse e) := by
  unfold select_item
  rw [h]

/-- C8 witness: the non-numeric input `"abc"`. -/
theorem select_item_parse_error_witness :
    select_item "abc" ["a", "b"] = .error (.parse .invalidDigit) :=
  select_item_parse_error "abc" ["a", "b"] .invalidDigit (by decide)

/-- C10: on the empty candidate sequence, any numerically parsing input
reaches the out-of-bounds branch, whose high bound `choices.len() - 1` is
the `usize` subtraction `0 - 1`: it wraps to `2 ^ 64 - 1`, so the bounds
error with high bound `candidateCount - 1` is not constructible there. -/
theorem select_item_empty_underflow (input : String) (j : Nat)
    (h : parseUnsigned usizeSize (rustTrim input).data = .ok j) :
    select_item input ([] : List String) = .error (.choice 0 (usizeSize - 1)) ∧
    usizeSub 0 1 = usizeSize - 1 ∧
    usizeSize - 1 ≠ ([] : List String).length - 1 := by
  refine ⟨?_, by decide, by decide⟩
  unfold select_item
  rw [h]
  simp only [List.length_nil, Nat.zero_le, if_true]
  rw [show usizeSub 0 1 = usizeSize - 1 by decide]

/-- C4: socket synthesis is total (its result type has no failure case):
a V4 address becomes the IPv4 socket address `(a, port)` and a V6 address
becomes the IPv6 socket address `(a, port, 0, 0)`. -/
theorem create_socket_total (ip4 : Ipv4Addr) (ip6 : Ipv6Addr) (port : Nat) :
    create_socket (.V4 ip4) port = .V4 ip4 port ∧
    create_socket (.V6 ip6) port = .V6 ip6 port 0 0 :=
  ⟨rfl, rfl⟩

/-- C5: URL synthesis is total and produces exactly
`"http://{s}:{port}"` for a V4-tagged display string and
`"http://[{s}]:{port}"` for a V6-tagged one (brackets always present);
instantiated on the spec's Scenario C and Scenario D values. -/
theorem create_url_exact (s : String) (port : Nat) :
    create_url (.V4 s) port = "http://" ++ s ++ ":" ++ natToDecimalStr port ∧
    create_url (.V6 s) port = "http://[" ++ s ++ "]:" ++ natToDecimalStr port ∧
    create_url (.V4 "192.168.1.5") 8080 = "http://192.168.1.5:8080" ∧
    create_url (.V6 "fe80:0:0:0:abcd:1:2:3") 80 = "http://[fe80:0:0:0:abcd:1:2:3]:80" :=
  ⟨rfl, rfl, by decide, by decide⟩

theorem ip_to_ip_string_family (ip : IpNetwork) :
    (ip_to_ip_string ip).family = ip.family := by
  cases ip <;> rfl

theorem create_socket_family (ip : IpNetwork) (port : Nat) :
    (create_socket ip port).family = ip.family := by
  cases ip <;> rfl

theorem select_item_ok_lt (input s : String) (choices : List String) (n : Nat)
    (h : select_item input choices = .ok (n, s)) : n < choices.length := by
  unfold select_item at h
  split at h
  · exact absurd h (by simp)
  · split at h
    · exact absurd h (by simp)
    · cases h
      omega

theorem choose_ip_eq_of_error (choices : List IpString) (stdin : List String)
    (e : RustError)
    (hsel : select_item (stdinHead stdin) (choices.map ipStringValue) = .error e) :
    choose_ip choices stdin = (.error e, stdinRest stdin) := by
  unfold choose_ip choose_number
  rw [hsel]

theorem choose_ip_eq_of_ok (choices : List IpString) (stdin : List String)
    (n : Nat) (s : String)
    (hsel : select_item (stdinHead stdin) (choices.map ipStringValue) = .ok (n, s)) :
    choose_ip choices stdin =
      match choices.get? n with
      | some (.V4 _) => (.ok (n, .V4 s), stdinRest stdin)
      | some (.V6 _) => (.ok (n, .V6 s), stdinRest stdin)
      | none => (.error .indexPanic, stdinRest stdin) := by
  unfold choose_ip choose_number
  rw [hsel]

theorem choose_ip_ok_inv (choices : List IpString) (stdin rest : List String)
    (i : Nat) (tagged : IpString)
    (h : choose_ip choices stdin = (.ok (i, tagged), rest)) :
    ∃ orig, choices.get? i = some orig ∧ tagged.family = orig.family := by
  cases hsel : select_item (stdinHead stdin) (choices.map ipStringValue) with
  | error e =>
    rw [choose_ip_eq_of_error choices stdin e hsel] at h
    exact absurd h (by simp)
  | ok p =>
    obtain ⟨n, s⟩ := p
    rw [choose_ip_eq_of_ok choices stdin n s hsel] at h
    cases hget : choices.get? n with
    | none =>
      rw [hget] at h
      exact absurd h (by simp)
    | some orig =>
      rw [hget] at h
      cases orig with
      | V4 v =>
        simp only [Prod.mk.injEq, Except.ok.injEq] at h
        obtain ⟨⟨rfl, rfl⟩, _⟩ := h
        exact ⟨.V4 v, hget, rfl⟩
      | V6 v =>
        simp only [Prod.mk.injEq, Except.ok.injEq] at h
        obtain ⟨⟨rfl, rfl⟩, _⟩ := h
        exact ⟨.V6 v, hget, rfl⟩

/-- C6: when address resolution over the display strings of an interface's
address list succeeds with index `i`, the family tag of the returned
display string is the family of the original binary address at index `i`,
so the socket synthesized from that binary address carries the same
family as the tagged display string the URL is synthesized from. -/
theorem choose_ip_family_end_to_end (ips : List IpNetwork) (stdin rest : List String)
    (i : Nat) (tagged : IpString)
    (h : choose_ip (ips.map ip_to_ip_string) stdin = (.ok (i, tagged), rest)) :
    ∃ ip, ips.get? i = some ip ∧ tagged.family = ip.family ∧
      ∀ port, (create_socket ip port).family = tagged.family := by
  obtain ⟨orig, hget, hfam⟩ := choose_ip_ok_inv _ _ _ _ _ h
  rw [List.get?_map] at hget
  cases hip : ips.get? i with
  | none =>
    rw [hip] at hget
    exact absurd hget (by simp)
  | some ip =>
    rw [hip] at hget
    have hfi : ip_to_ip_string ip = orig := by simpa using hget
    refine ⟨ip, rfl, ?_, ?_⟩
    · rw [hfam, ← hfi, ip_to_ip_string_family]
    · intro port
      rw [create_socket_family, hfam, ← hfi, ip_to_ip_string_family]

/-- C6 witness: a single V6 address, selected with input `"0"`. -/
theorem choose_ip_family_end_to_end_witness :
    ∃ ip, ([IpNetwork.V6 ⟨0xfe80, 0, 0, 0, 0xabcd, 1, 2, 3⟩] : List IpNetwork).get? 0 =
        some ip ∧
      (IpString.V6 "fe80:0:0:0:abcd:1:2:3").family = ip.family ∧
      ∀ port, (create_socket ip port).family = (IpString.V6 "fe80:0:0:0:abcd:1:2:3").family :=
  choose_ip_family_end_to_end [.V6 ⟨0xfe80, 0, 0, 0, 0xabcd, 1, 2, 3⟩] ["0"] [] 0
    (.V6 "fe80:0:0:0:abcd:1:2:3") (by decide)

/-- C7: when an explicitly requested interface name is absent from the
catalog, endpoint resolution fails with the interface-not-found error
carrying exactly that name, consumes no input line and synthesizes
nothing. -/
theorem get_network_socket_not_found (osInterfaces : List NetworkInterface)
    (name portStr : String) (stdin : List String)
    (h : mapLookup (get_network_interfaces osInterfaces) name = none) :
    get_network_socket osInterfaces (some name) portStr stdin =
      (.error (.interfaceNotFound name), stdin) := by
  simp only [get_network_socket, h]

/-- C7 witness: Scenario E of the spec, the absent name `"doesnotexist"`. -/
theorem get_network_socket_not_found_witness :
    get_network_socket [⟨"eth0", [.V4 ⟨192, 168, 1, 5⟩]⟩] (some "doesnotexist") "3000"
        ["0"] =
      (.error (.interfaceNotFound "doesnotexist"), ["0"]) :=
  get_network_socket_not_found [⟨"eth0", [.V4 ⟨192, 168, 1, 5⟩]⟩] "doesnotexist" "3000"
    ["0"] (by decide)

theorem mem_mapInsert (m : List (String × NetworkInterface)) (k : String)
    (v : NetworkInterface) (p : String × NetworkInterface)
    (h : p ∈ mapInsert m k v) : p ∈ m ∨ p = (k, v) := by
  unfold mapInsert at h
  by_cases hany : m.any (fun q => q.1 == k)
  · rw [if_pos hany] at h
    obtain ⟨q, hq, hfq⟩ := List.mem_map.mp h
    by_cases hqk : q.1 == k
    · right
      rw [← hfq, if_pos hqk]
    · left
      rw [← hfq, if_neg hqk]
      exact hq
  · rw [if_neg hany] at h
    rcases List.mem_append.mp h with h | h
    · exact Or.inl h
    · exact Or.inr (by simpa using h)

theorem foldl_insertInterface_no_empty (os : List NetworkInterface) :
    ∀ acc, (∀ p ∈ acc, p.2.ips ≠ []) →
      ∀ p ∈ os.foldl insertInterface acc, p.2.ips ≠ [] := by
  induction os with
  | nil => exact fun acc hacc p hp => hacc p hp
  | cons i os ih =>
    intro acc hacc p hp
    rw [List.foldl_cons] at hp
    refine ih (insertInterface acc i) ?_ p hp
    intro q hq
    unfold insertInterface at hq
    by_cases he : i.ips.isEmpty
    · rw [if_pos he] at hq
      exact hacc q hq
    · rw [if_neg he] at hq
      rcases mem_mapInsert _ _ _ _ hq with hmem | heq
      · exact hacc q hmem
      · rw [heq]
        intro hnil
        exact he (List.isEmpty_iff.mpr hnil)

/-- C9: the interface catalog never contains an entry with an empty
address sequence (interfaces with zero assigned addresses are discarded),
and the empty snapshot yields the empty catalog, a valid non-error
result. -/
theorem get_network_interfaces_no_empty_entry (osInterfaces : List NetworkInterface) :
    (∀ p ∈ get_network_interfaces osInterfaces, p.2.ips ≠ []) ∧
    get_network_interfaces [] = [] :=
  ⟨foldl_insertInterface_no_empty osInterfaces []
    (fun p hp => absurd hp (List.not_mem_nil p)), rfl⟩

/-- C9 witness: a snapshot with an address-less interface and a populated
one; the surviving catalog entry has a non-empty address list. -/
theorem get_network_interfaces_no_empty_entry_witness :
    (("eth0", ⟨"eth0", [.V4 ⟨192, 168, 1, 5⟩]⟩) : String × NetworkInterface).2.ips ≠ [] :=
  (get_network_interfaces_no_empty_entry
      [⟨"lo", []⟩, ⟨"eth0", [.V4 ⟨192, 168, 1, 5⟩]⟩]).1 _ (by decide)

/-- C10 witness: the input `"0"` on the empty candidate sequence. -/
theorem select_item_empty_underflow_witness :
    select_item "0" ([] : List String) = .error (.choice 0 (usizeSize - 1)) ∧
    usizeSub 0 1 = usizeSize - 1 ∧
    usizeSize - 1 ≠ ([] : List String).length - 1 :=
  select_item_empty_underflow "0" 0 (by decide)
